import Mathlib

/-!
Verification development for the DeterministicRuleEngine
(`src/deterministic_rule_engine/engine_v1_0_0_alpha.py`).

Modelling conventions:
* Python strings are modelled as `List Char` (sequences of Unicode code
  points); slicing is `drop`/`take`, containment is a literal substring
  search (`pyFind`).  Case-insensitive comparison is modelled on the
  ASCII range (the only range the dedup normalizer touches and the only
  one exercised by the rules' configured keywords).
* Python's `re` engine is outside the embedding.  A compiled pattern is
  modelled by its observable `finditer` behaviour: the ordered list of
  match spans `(start, stop)` it yields on a given text; the matched
  text of a span is `text[start:stop]`.  `compile_regexes` is therefore
  modelled by a `Config` that directly carries the compiled name → pattern
  map.
* The engine's input document (`block_extractor_output` JSON) is modelled
  by the dynamic value type `JVal`, so the loader's coercions and failure
  modes (`str(...)`, `int(... or 1)`, iteration over non-lists) can be
  stated faithfully.  Python exceptions become `Except PyErr`.
-/

/-- Python text modelled as a list of Unicode code points. -/
abbrev Str := List Char

/-- Converts a Lean string literal to the `Str` model. -/
def pstr (s : String) : Str := s.data

/-- Characters stripped by Python's default `str.strip()` / matched by `\s`
(ASCII whitespace; the engine's texts and keywords use no exotic spaces). -/
def pyIsSpace (c : Char) : Bool :=
  c = ' ' || c = '\t' || c = '\n' || c = '\r' || c = Char.ofNat 11 || c = Char.ofNat 12

/-- Python `str.strip()`: drop leading and trailing whitespace. -/
def pyStrip (s : Str) : Str :=
  ((s.dropWhile pyIsSpace).reverse.dropWhile pyIsSpace).reverse

/-- Worker for whitespace-run collapsing; the flag records whether the
previous character was part of a whitespace run. -/
def collapseAux : Bool → Str → Str
  | _, [] => []
  | prev, c :: cs =>
    if pyIsSpace c then
      if prev then collapseAux true cs else ' ' :: collapseAux true cs
    else c :: collapseAux false cs

/-- Python `re.sub(r"\s+", " ", s)`: every maximal whitespace run becomes
one space. -/
def collapseRuns (s : Str) : Str := collapseAux false s

/-- ASCII-only lower-casing of one character, as in the engine's dedup
normalizer (`ch.lower() if "A" <= ch <= "Z" else ch`). -/
def asciiLower (c : Char) : Char :=
  if 'A' ≤ c ∧ c ≤ 'Z' then Char.ofNat (c.toNat + 32) else c

/-- The `_FULLWIDTH_MAP` translation table of the engine (a fixed set of
fullwidth punctuation characters; letters and digits untouched). -/
def halfwidthChar (c : Char) : Char :=
  if c = '：' then ':'
  else if c = '（' then '('
  else if c = '）' then ')'
  else if c = '，' then ','
  else if c = '。' then '.'
  else if c = '；' then ';'
  else if c = '【' then '['
  else if c = '】' then ']'
  else if c = '％' then '%'
  else if c = '＋' then '+'
  else if c = '－' then '-'
  else if c = '／' then '/'
  else c

/-- Python `hay.find(needle)`: index of the leftmost occurrence of `needle`
as a contiguous substring of `hay`, if any (`find` returns `-1`, modelled
as `none`). -/
def pyFind : Str → Str → Option Nat
  | [], needle => if needle = [] then some 0 else none
  | c :: rest, needle =>
    if needle.isPrefixOf (c :: rest) then some 0
    else (pyFind rest needle).map (· + 1)

/-- Python `needle in hay` on strings. -/
def pyContains (hay needle : Str) : Bool := (pyFind hay needle).isSome

/-- Worker for `countOcc`: counts non-overlapping occurrences of the fixed
nonempty `needle`, scanning left to right; `skip` is the number of
positions still covered by the previous match. -/
def countOccAux (needle : Str) : Str → Nat → Nat
  | [], _ => 0
  | c :: cs, skip =>
    if 0 < skip then countOccAux needle cs (skip - 1)
    else if needle.isPrefixOf (c :: cs) then countOccAux needle cs (needle.length - 1) + 1
    else countOccAux needle cs 0

/-- Python `hay.count(needle)`: number of non-overlapping occurrences
(`"ab".count("") = 3`, i.e. length + 1, for the empty needle). -/
def countOcc (hay needle : Str) : Nat :=
  if needle = [] then hay.length + 1 else countOccAux needle hay 0

/-- Decimal-digit parser used by the model of Python `int(str)`. -/
def digitsToNat (s : Str) : Option Nat :=
  match s with
  | [] => none
  | _ => if s.all Char.isDigit then
           some (s.foldl (fun a c => a * 10 + (c.toNat - 48)) 0)
         else none

/-- Python `int(s)` on a string: optional surrounding whitespace, optional
sign, then decimal digits; anything else raises (modelled as `none`). -/
def pyIntOfStr (s : Str) : Option Int :=
  match pyStrip s with
  | [] => none
  | c :: rest =>
    if c = '+' then (digitsToNat rest).map Int.ofNat
    else if c = '-' then (digitsToNat rest).map (fun n => -(n : Int))
    else (digitsToNat (c :: rest)).map Int.ofNat

/-- Dynamic JSON-like Python value (the engine's input documents; floats
are not exercised by the loader model). -/
inductive JVal where
  | null : JVal
  | bool : Bool → JVal
  | int : Int → JVal
  | str : Str → JVal
  | arr : List JVal → JVal
  | obj : List (Str × JVal) → JVal

/-- Python truthiness of a value (`bool(v)`). -/
def pyTruthy : JVal → Bool
  | .null => false
  | .bool b => b
  | .int n => decide (n ≠ 0)
  | .str s => !s.isEmpty
  | .arr xs => !xs.isEmpty
  | .obj kvs => !kvs.isEmpty

/-- Separator used when rendering containers. -/
def joinSep (sep : Str) : List Str → Str
  | [] => []
  | [x] => x
  | x :: y :: xs => x ++ sep ++ joinSep sep (y :: xs)

mutual
/-- Python `repr(v)` (strings quoted with `'`; escape subtleties inside
container renderings are not exercised by the engine). -/
def pyRepr : JVal → Str
  | .null => pstr "None"
  | .bool true => pstr "True"
  | .bool false => pstr "False"
  | .int n => (toString n).data
  | .str s => Char.ofNat 39 :: s ++ [Char.ofNat 39]
  | .arr xs => '[' :: joinSep (pstr ", ") (pyReprArr xs) ++ [']']
  | .obj kvs => Char.ofNat 123 :: joinSep (pstr ", ") (pyReprObj kvs) ++ [Char.ofNat 125]

/-- Renders the elements of a list value. -/
def pyReprArr : List JVal → List Str
  | [] => []
  | v :: vs => pyRepr v :: pyReprArr vs

/-- Renders the entries of a dict value. -/
def pyReprObj : List (Str × JVal) → List Str
  | [] => []
  | (k, v) :: kvs =>
    ((Char.ofNat 39 :: k ++ [Char.ofNat 39]) ++ pstr ": " ++ pyRepr v) :: pyReprObj kvs
end

/-- Python `str(v)`. -/
def pyStr : JVal → Str
  | .str s => s
  | v => pyRepr v

/-- Python exceptions surfaced by the loader. -/
inductive PyErr where
  | valueError : PyErr
  | typeError : PyErr
  | attributeError : PyErr
deriving DecidableEq

/-- Python `int(v)` on a dynamic value (floats are outside the model). -/
def pyInt : JVal → Except PyErr Int
  | .int n => .ok n
  | .bool b => .ok (if b then 1 else 0)
  | .str s =>
    match pyIntOfStr s with
    | some n => .ok n
    | none => .error .valueError
  | .null => .error .typeError
  | .arr _ => .error .typeError
  | .obj _ => .error .typeError

/-- Association-list lookup, modelling Python `dict.get(k)`. -/
def alistGet? [DecidableEq κ] : List (κ × α) → κ → Option α
  | [], _ => none
  | (k', v) :: rest, k => if k' = k then some v else alistGet? rest k

/-- Python `k in dict`. -/
def alistMem [DecidableEq κ] (d : List (κ × α)) (k : κ) : Bool :=
  (alistGet? d k).isSome

/-- Python `d[k] = v`: replaces in place when the key exists (insertion
order preserved), appends at the end otherwise. -/
def alistSet [DecidableEq κ] : List (κ × α) → κ → α → List (κ × α)
  | [], k, v => [(k, v)]
  | (k', v') :: rest, k, v =>
    if k' = k then (k, v) :: rest else (k', v') :: alistSet rest k v

/-- Keys of an association list, in insertion order. -/
def alistKeys (d : List (κ × α)) : List κ := d.map Prod.fst

/-- First element satisfying a predicate (Python for-loop with `break`). -/
def findFirst? (p : α → Bool) : List α → Option α
  | [] => none
  | x :: xs => if p x then some x else findFirst? p xs

/-- First non-`none` value of `f` over a list (Python for-loop returning
on the first hit). -/
def findSomeFirst? (f : α → Option β) : List α → Option β
  | [] => none
  | x :: xs =>
    match f x with
    | some y => some y
    | none => findSomeFirst? f xs

/-- Keeps a located snippet only when Python would treat it as truthy
(the engine's `if sn:` checks skip both `None` and `""`). -/
def nonEmptyOpt : Option Str → Option Str
  | some s => if s = [] then none else some s
  | none => none

/-- Concatenation of per-element results in list order (the translation of
a Python loop that `extend`s/`append`s into a result list). -/
def listJoinMap (g : α → List β) : List α → List β
  | [] => []
  | x :: xs => g x ++ listJoinMap g xs

/-- The `Line` dataclass of the engine. -/
structure Line where
  line_id : Str
  text : Str
  source_page : Int
deriving DecidableEq

/-- The `Block` dataclass of the engine. -/
structure Block where
  block_id : Str
  block_type : Str
  text_raw : Str
  source_page : Int
deriving DecidableEq

/-- A compiled regex, modelled by its `finditer` behaviour: the ordered
list of `(start, stop)` spans it produces on a text. -/
structure RegexPattern where
  find : Str → List (Nat × Nat)

/-- The pattern-dictionary configuration as consumed by the engine:
`matching.normalization` flags, the compiled regex map (the output of
`compile_regexes`), the intent keyword lists, the two relationship
thresholds and the dictionary version tag. -/
structure Config where
  fullwidth_to_halfwidth : Bool
  collapse_whitespace : Bool
  lowercase_for_match : Bool
  regexes : List (Str × RegexPattern)
  intents : List (Str × List Str)
  thr_weak_max : Option Int
  thr_prod_min : Option Int
  dict_version : Option Str

/-- The scope dictionary produced by `build_scopes`. -/
structure Scopes where
  global_text_raw : Str
  page_text_raw : List (Int × Str)
  block_text_raw : List (Str × Str)
  line_text_by_id : List (Str × Str)
  blocks : List Block
  blocks_by_type : List (Str × List Block)

/-- The `evidence` sub-object of a risk. -/
structure Evidence where
  block_id : Str
  raw_snippet : Str
deriving DecidableEq

/-- A risk finding (`make_risk` output). -/
structure Risk where
  risk_type : Str
  detection_method : Str
  evidence : Evidence
  risk_description : Str
  risk_logic : Str
deriving DecidableEq

/-- The result envelope returned by `run_engine`. -/
structure EngineResult where
  system_version : Str
  module_name : Str
  module_version : Str
  spec_version : Str
  dict_version : Str
  schema_version : Str
  detection_method : Str
  risk_list : List Risk
deriving DecidableEq

/-- Loads one entry of `raw_text_lines` (the body of the first loop of
`load_block_extractor_output`): `str(...)` coercions with defaults, and
`int(item.get("source_page", 1) or 1)` which raises on a truthy
non-numeric page. -/
def loadLineItem (item : JVal) : Except PyErr Line :=
  match item with
  | .obj kvs =>
    let idS := pyStr ((alistGet? kvs (pstr "line_id")).getD (.str []))
    let txt := pyStr ((alistGet? kvs (pstr "text")).getD (.str []))
    let pv := (alistGet? kvs (pstr "source_page")).getD (.int 1)
    let pv := if pyTruthy pv then pv else .int 1
    match pyInt pv with
    | .ok p => .ok ⟨idS, txt, p⟩
    | .error e => .error e
  | _ => .error .attributeError

/-- Loads one entry of `blocks` (the body of the second loop of
`load_block_extractor_output`). -/
def loadBlockItem (item : JVal) : Except PyErr Block :=
  match item with
  | .obj kvs =>
    let idS := pyStr ((alistGet? kvs (pstr "block_id")).getD (.str []))
    let bty := pyStr ((alistGet? kvs (pstr "block_type")).getD (.str []))
    let txt := pyStr ((alistGet? kvs (pstr "text_raw")).getD (.str []))
    let pv := (alistGet? kvs (pstr "source_page")).getD (.int 1)
    let pv := if pyTruthy pv then pv else .int 1
    match pyInt pv with
    | .ok p => .ok ⟨idS, bty, txt, p⟩
    | .error e => .error e
  | _ => .error .attributeError

/-- Evaluates `data.get(key, []) or []` and iterates it: falsy values give
the empty list; a truthy non-list raises when iterated/accessed. -/
def getItems (kvs : List (Str × JVal)) (key : Str) : Except PyErr (List JVal) :=
  let v := (alistGet? kvs key).getD (.arr [])
  if pyTruthy v then
    match v with
    | .arr xs => .ok xs
    | _ => .error .typeError
  else .ok []

/-- The `load_block_extractor_output` function: coerces each line and
block entry, propagating the first Python exception. -/
def load_block_extractor_output (data : JVal) : Except PyErr (List Line × List Block) := do
  match data with
  | .obj kvs =>
    let lineItems ← getItems kvs (pstr "raw_text_lines")
    let lines ← lineItems.mapM loadLineItem
    let blockItems ← getItems kvs (pstr "blocks")
    let blocks ← blockItems.mapM loadBlockItem
    return (lines, blocks)
  | _ => .error .attributeError

/-- One step of the `page_text_raw` construction loop in `build_scopes`:
insert the page key on first sight, then append `text_raw + "\n"` when
the text is nonempty. -/
def pageStep (d : List (Int × Str)) (b : Block) : List (Int × Str) :=
  let d1 := if alistMem d b.source_page then d else alistSet d b.source_page []
  if b.text_raw = [] then d1
  else alistSet d1 b.source_page (((alistGet? d1 b.source_page).getD []) ++ b.text_raw ++ ['\n'])

/-- One step of the `blocks_by_type` construction loop in `build_scopes`
(`setdefault(bt, []).append(b)`). -/
def typeStep (d : List (Str × List Block)) (b : Block) : List (Str × List Block) :=
  alistSet d b.block_type (((alistGet? d b.block_type).getD []) ++ [b])

/-- The `build_scopes` function. -/
def build_scopes (lines : List Line) (blocks : List Block) : Scopes :=
  ⟨ joinSep ['\n'] ((blocks.filter (fun b => !b.text_raw.isEmpty)).map Block.text_raw)
  , blocks.foldl pageStep []
  , blocks.foldl (fun d b => alistSet d b.block_id b.text_raw) []
  , lines.foldl (fun d l => alistSet d l.line_id l.text) []
  , blocks
  , blocks.foldl typeStep [] ⟩

/-- The `normalize_for_match` function: optional fullwidth folding, then
optional whitespace collapsing (`re.sub` then `strip`), then optional
lower-casing, each controlled by the configuration. -/
def normalize_for_match (s : Str) (cfg : Config) : Str :=
  let o1 := if cfg.fullwidth_to_halfwidth then s.map halfwidthChar else s
  let o2 := if cfg.collapse_whitespace then pyStrip (collapseRuns o1) else o1
  if cfg.lowercase_for_match then o2.map asciiLower else o2

/-- The `normalize_for_dedup_key` function: strip, collapse whitespace
runs, ASCII-only lower-casing. -/
def normalize_for_dedup_key (snippet : Str) : Str :=
  (collapseRuns (pyStrip snippet)).map asciiLower

/-- The `get_intent_keywords` function: the configured keyword list with
blank entries filtered out. -/
def get_intent_keywords (cfg : Config) (intentName : Str) : List Str :=
  ((alistGet? cfg.intents intentName).getD []).filter (fun k => !(pyStrip k).isEmpty)

/-- The `intent_match_any` function: some keyword, once normalized, is
nonempty and occurs in the (already normalized) text. -/
def intent_match_any (textNorm : Str) (keywords : List Str) (cfg : Config) : Bool :=
  keywords.any (fun kw =>
    let kn := normalize_for_match kw cfg
    !kn.isEmpty && pyContains textNorm kn)

/-- The `regex_find_any` function: all spans of the pattern on the text. -/
def regex_find_any (text : Str) (rx : RegexPattern) : List (Nat × Nat) :=
  rx.find text

/-- The `pick_evidence_snippet_for_keyword` function: exact substring
first, then a case-insensitive literal search returning the matched
original-case excerpt. -/
def pick_evidence_snippet_for_keyword (originalText keyword : Str) (cfg : Config) : Option Str :=
  if originalText = [] then none
  else if pyContains originalText keyword then some keyword
  else
    match pyFind (originalText.map asciiLower) (keyword.map asciiLower) with
    | some i => some ((originalText.drop i).take keyword.length)
    | none => none

/-- The `pick_evidence_snippet_for_regex` function: the first match's
matched substring of the original text. -/
def pick_evidence_snippet_for_regex (originalText : Str) (rx : RegexPattern) : Option Str :=
  if originalText = [] then none
  else
    match regex_find_any originalText rx with
    | [] => none
    | (s, e) :: _ => some ((originalText.drop s).take (e - s))

/-- The `make_risk` constructor. -/
def make_risk (risk_type block_id raw_snippet risk_description risk_logic : Str) : Risk :=
  ⟨risk_type, pstr "rule_guardrail", ⟨block_id, raw_snippet⟩, risk_description, risk_logic⟩

/-- The `has_block_type` helper nested in `rule_missing`. -/
def scope_has_block_type (s : Scopes) (bt : Str) : Bool :=
  decide (((alistGet? s.blocks_by_type bt).getD []).length > 0)

/-- The `has_intent` helper nested in `rule_missing` (whole-document
normalized text against an intent's keywords). -/
def global_has_intent (s : Scopes) (cfg : Config) (intent : Str) : Bool :=
  intent_match_any (normalize_for_match s.global_text_raw cfg) (get_intent_keywords cfg intent) cfg

/-- The `has_regex` helper nested in `rule_missing`. -/
def global_has_regex (s : Scopes) (rxs : List (Str × RegexPattern)) (rname : Str) : Bool :=
  match alistGet? rxs rname with
  | none => false
  | some rx => decide ((regex_find_any s.global_text_raw rx).length > 0)

/-- The `rule_missing` evaluator: one conditional finding per required
signal, in source order. -/
def rule_missing (s : Scopes) (cfg : Config) (rxs : List (Str × RegexPattern)) : List Risk :=
  (if global_has_intent s cfg (pstr "net_content_intent")
      || global_has_regex s rxs (pstr "net_content_value")
      || global_has_regex s rxs (pstr "net_content_multi") then []
   else [make_risk (pstr "missing_net_content") (pstr "N/A") (pstr "N/A")
          (pstr "Net content field not observed")
          (pstr "No net content intent keywords or value patterns were detected in the extracted text")])
  ++ (if ((alistGet? s.blocks_by_type (pstr "title")).getD []).any
          (fun b => decide ((pyStrip b.text_raw).length > 2)) then []
      else [make_risk (pstr "missing_product_name") (pstr "N/A") (pstr "N/A")
             (pstr "Product name (title) not observed")
             (pstr "No valid title block was detected or title content is extremely short")])
  ++ (if global_has_intent s cfg (pstr "ingredient_intent")
         || scope_has_block_type s (pstr "ingredient") then []
      else [make_risk (pstr "missing_ingredient_list") (pstr "N/A") (pstr "N/A")
             (pstr "Ingredient list not observed")
             (pstr "No ingredient intent keywords or ingredient block was detected")])
  ++ (if global_has_intent s cfg (pstr "producer_intent")
         || scope_has_block_type s (pstr "producer") then []
      else [make_risk (pstr "missing_manufacturer_info") (pstr "N/A") (pstr "N/A")
             (pstr "Producer/manufacturer information not observed")
             (pstr "No producer intent keywords or producer block was detected")])
  ++ (if global_has_intent s cfg (pstr "date_shelf_life_intent")
         || scope_has_block_type s (pstr "date_shelf_life")
         || global_has_regex s rxs (pstr "date_ymd_numeric")
         || global_has_regex s rxs (pstr "date_ymd_cn") then []
      else [make_risk (pstr "missing_date_shelf_life") (pstr "N/A") (pstr "N/A")
             (pstr "Date or shelf-life information not observed")
             (pstr "No date/shelf-life intent keywords or date patterns were detected")])
  ++ (if global_has_intent s cfg (pstr "standard_label_intent")
         || scope_has_block_type s (pstr "standard")
         || global_has_regex s rxs (pstr "standard_code") then []
      else [make_risk (pstr "missing_standard_code") (pstr "N/A") (pstr "N/A")
             (pstr "Standard code not observed")
             (pstr "No standard label intent keywords, standard block, or standard code pattern was detected")])
  ++ (if global_has_intent s cfg (pstr "license_label_intent")
         || scope_has_block_type s (pstr "license")
         || global_has_regex s rxs (pstr "sc_code") then []
      else [make_risk (pstr "missing_production_license") (pstr "N/A") (pstr "N/A")
             (pstr "Production license (SC) not observed")
             (pstr "No license intent keywords, license block, or SC code pattern was detected")])

/-- The `find_block_containing_snippet` helper of `rule_format`: first
block of the given page whose raw text contains the snippet. -/
def find_block_containing_snippet (blocks : List Block) (snippet : Str) (page : Int) : Option Str :=
  (findFirst? (fun b => decide (b.source_page = page) && !b.text_raw.isEmpty
                && pyContains b.text_raw snippet) blocks).map Block.block_id

/-- Appends one format finding with the block attribution policy of
`rule_format` (`find_block_containing_snippet(...) or "N/A"`). -/
def emitPageRisk (blocks : List Block) (page : Int) (snippet rt desc logic : Str) : List Risk :=
  [make_risk rt ((find_block_containing_snippet blocks snippet page).getD (pstr "N/A"))
    snippet desc logic]

/-- Decides `bool(regexes.get(name) and regex_find_any(raw, rx))`. -/
def hasRxMatch (rxs : List (Str × RegexPattern)) (name : Str) (raw : Str) : Bool :=
  match alistGet? rxs name with
  | none => false
  | some rx => !(regex_find_any raw rx).isEmpty

/-- The `if snippet:` guard and emission shared by the two unit-casing
checks of `rule_format` (a falsy snippet — `None` or `""` — emits
nothing). -/
def unitEmit (blocks : List Block) (page : Int) (sn? : Option Str) (logic : Str) : List Risk :=
  match sn? with
  | some sn =>
    if sn = [] then []
    else emitPageRisk blocks page sn (pstr "format_unit_case_inconsistent")
           (pstr "Unit casing appears inconsistent within the same page scope") logic
  | none => []

/-- The unit-casing loop body of `rule_format` for one page: the mL pair,
then the L/l pair. -/
def fmtUnitPage (blocks : List Block) (rxs : List (Str × RegexPattern)) (pe : Int × Str) : List Risk :=
  (if hasRxMatch rxs (pstr "unit_ml_upper") pe.2 && hasRxMatch rxs (pstr "unit_ml_mixed") pe.2 then
     unitEmit blocks pe.1
       (match alistGet? rxs (pstr "unit_ml_upper") with
        | some rx => pick_evidence_snippet_for_regex pe.2 rx
        | none => some (pstr "ML"))
       (pstr "Multiple casing variants for the same unit were detected in the same scope")
   else [])
  ++ (if hasRxMatch rxs (pstr "unit_l_upper") pe.2 && hasRxMatch rxs (pstr "unit_l_lower") pe.2 then
        unitEmit blocks pe.1
          (match alistGet? rxs (pstr "unit_l_lower") with
           | some rx => pick_evidence_snippet_for_regex pe.2 rx
           | none => some (pstr "l"))
          (pstr "Both uppercase and lowercase variants of the same unit were detected in the same scope")
      else [])

/-- The label-present/value-absent loop body of `rule_format` for one
page, shared by the net-content, standard-code and license-code rules
(which differ only in intent name, value regexes, fallback token and the
emitted strings). -/
def fmtLabelPage (blocks : List Block) (cfg : Config) (rxs : List (Str × RegexPattern))
    (intentName : Str) (rxNames : List Str) (fallback rt desc logic : Str)
    (pe : Int × Str) : List Risk :=
  let kws := get_intent_keywords cfg intentName
  let hasLabel := intent_match_any (normalize_for_match pe.2 cfg) kws cfg
  let hasValue := rxNames.any (fun n => hasRxMatch rxs n pe.2)
  if hasLabel && !hasValue then
    let snippet := (findSomeFirst?
        (fun kw => nonEmptyOpt (pick_evidence_snippet_for_keyword pe.2 kw cfg)) kws).getD fallback
    emitPageRisk blocks pe.1 snippet rt desc logic
  else []

/-- The `rule_format` evaluator: the four page loops of the source, in
order (unit casing, then net content, then standard code, then license
code), each iterating `page_text_raw` in its insertion order. -/
def rule_format (s : Scopes) (cfg : Config) (rxs : List (Str × RegexPattern)) : List Risk :=
  listJoinMap (fmtUnitPage s.blocks rxs) s.page_text_raw
  ++ listJoinMap (fmtLabelPage s.blocks cfg rxs (pstr "net_content_intent")
       [pstr "net_content_value", pstr "net_content_multi"] (pstr "净含量")
       (pstr "format_net_content_pattern_unusual")
       (pstr "Net content label observed but value pattern not detected")
       (pstr "Net content-related label keyword was detected, but no numeric value+unit pattern was matched in the same scope"))
       s.page_text_raw
  ++ listJoinMap (fmtLabelPage s.blocks cfg rxs (pstr "standard_label_intent")
       [pstr "standard_code"] (pstr "执行标准")
       (pstr "format_standard_code_pattern_unusual")
       (pstr "Standard label observed but standard code pattern not detected")
       (pstr "Standard-related label keyword was detected, but no standard-code-like token was matched in the same scope"))
       s.page_text_raw
  ++ listJoinMap (fmtLabelPage s.blocks cfg rxs (pstr "license_label_intent")
       [pstr "sc_code"] (pstr "SC")
       (pstr "format_license_code_pattern_unusual")
       (pstr "License label observed but SC code pattern not detected")
       (pstr "License-related label keyword was detected, but no SC-code-like token was matched in the same scope"))
       s.page_text_raw

/-- The `pick_first_keyword_evidence_in_blocks` function: scanning blocks
in order, the first truthy evidence snippet for any keyword, with its
block id. -/
def pick_first_keyword_evidence_in_blocks (blocks : List Block) (keywords : List Str)
    (cfg : Config) : Option (Str × Str) :=
  findSomeFirst?
    (fun b =>
      if b.text_raw = [] then none
      else (findSomeFirst?
          (fun kw => nonEmptyOpt (pick_evidence_snippet_for_keyword b.text_raw kw cfg))
          keywords).map (fun sn => (sn, b.block_id)))
    blocks

/-- The evidence snippet of the strong-entrustment branch of
`rule_relationship`: `snippet = snippet or kws_strong[0] if kws_strong
else "受委托生产"`, which Python parses as `(snippet or kws_strong[0]) if
kws_strong else "受委托生产"`. -/
def strongSnippet (blocks : List Block) (kwsStrong : List Str) (cfg : Config) : Str :=
  match kwsStrong with
  | [] => pstr "受委托生产"
  | k :: _ =>
    match pick_first_keyword_evidence_in_blocks blocks kwsStrong cfg with
    | some (sn, _) => if sn = [] then k else sn
    | none => k

/-- The evidence block id of the strong-entrustment branch of
`rule_relationship` (`bid = bid or "N/A"`). -/
def strongBid (blocks : List Block) (kwsStrong : List Str) (cfg : Config) : Str :=
  match pick_first_keyword_evidence_in_blocks blocks kwsStrong cfg with
  | some (_, b) => if b = [] then pstr "N/A" else b
  | none => pstr "N/A"

/-- The emission step of the weak-entrustment branch of
`rule_relationship`, applied to the first qualifying block (if any): the
evidence snippet is the first truthy keyword pick, falling back to
`kws_weak[0]` (nonempty whenever this branch runs). -/
def weakEmit (cfg : Config) (kwsWeak : List Str) (ob : Option Block) : List Risk :=
  match ob with
  | some b =>
    let snippet := (findSomeFirst?
        (fun kw => nonEmptyOpt (pick_evidence_snippet_for_keyword b.text_raw kw cfg))
        kwsWeak).getD (kwsWeak.headD (pstr ""))
    [make_risk (pstr "entrusted_context_ambiguous") b.block_id snippet
      (pstr "Ambiguous entrust-production wording observed in producer context")
      (pstr "Weak entrust keywords were detected in a producer-context block, while no principal-party keywords were detected; this is treated as an ambiguous relationship signal")]
  | none => []

/-- The `rule_relationship` evaluator: the strong-entrustment branch
(emitting `incomplete_entrust_relationship` and returning), otherwise the
weak-entrustment branch (emitting at most one
`entrusted_context_ambiguous`). -/
def rule_relationship (s : Scopes) (cfg : Config) (_rxs : List (Str × RegexPattern)) : List Risk :=
  let globalNorm := normalize_for_match s.global_text_raw cfg
  let kwsPrincipal := get_intent_keywords cfg (pstr "principal_party_intent")
  let kwsStrong := get_intent_keywords cfg (pstr "entrusted_party_strong_intent")
  let kwsWeak := get_intent_keywords cfg (pstr "entrusted_party_weak_intent")
  let kwsProducer := get_intent_keywords cfg (pstr "producer_intent")
  let hasPrincipal := intent_match_any globalNorm kwsPrincipal cfg
  let hasStrong := intent_match_any globalNorm kwsStrong cfg
  if hasStrong && !hasPrincipal then
    [make_risk (pstr "incomplete_entrust_relationship")
      (strongBid s.blocks kwsStrong cfg) (strongSnippet s.blocks kwsStrong cfg)
      (pstr "Entrust-production context observed but principal party not observed")
      (pstr "Strong entrust-production keywords were detected, but no principal-party keywords were detected in the extracted text")]
  else if !hasStrong && !hasPrincipal then
    let weakMax := let v := cfg.thr_weak_max.getD 1; if v = 0 then 1 else v
    let prodMin := let v := cfg.thr_prod_min.getD 1; if v = 0 then 1 else v
    let weakCount : Nat := (kwsWeak.map (fun kw =>
        let kn := normalize_for_match kw cfg
        if kn = [] then 0 else countOcc globalNorm kn)).sum
    if decide (0 < weakCount) && decide ((weakCount : Int) ≤ weakMax) then
      weakEmit cfg kwsWeak (findFirst? (fun b =>
        let bn := normalize_for_match b.text_raw cfg
        (kwsWeak.any (fun kw => pyContains bn (normalize_for_match kw cfg))) &&
        decide (prodMin ≤ ((kwsProducer.countP (fun kwp =>
            let kn := normalize_for_match kwp cfg
            !kn.isEmpty && pyContains bn kn)) : Int))) s.blocks)
    else []
  else []

/-- The deduplication key computed inside `deduplicate`. -/
def dedupKey (r : Risk) : Str :=
  if r.evidence.raw_snippet = pstr "N/A" then r.risk_type
  else r.risk_type ++ pstr "||" ++ normalize_for_dedup_key r.evidence.raw_snippet

/-- Worker for `deduplicate`: the loop over findings with its `seen` key
set (modelled as a list; only membership is used). -/
def dedupAux (seen : List Str) : List Risk → List Risk
  | [] => []
  | r :: rs =>
    if dedupKey r ∈ seen then dedupAux seen rs
    else r :: dedupAux (dedupKey r :: seen) rs

/-- The `deduplicate` function: keep the first finding per key, in order. -/
def deduplicate (risks : List Risk) : List Risk :=
  dedupAux [] risks

/-- The risk-list portion of `run_engine`, applied to already-loaded lines
and blocks: build scopes, run the three rule families in order,
deduplicate. -/
def run_core (lines : List Line) (blocks : List Block) (cfg : Config) : List Risk :=
  let s := build_scopes lines blocks
  deduplicate (rule_missing s cfg cfg.regexes ++ rule_format s cfg cfg.regexes
    ++ rule_relationship s cfg cfg.regexes)

/-- The `run_engine` function: load, evaluate, wrap in the result envelope
(`str(patterns_cfg.get("dict_version", "v1.0.0-alpha"))` modelled by the
configuration's optional version tag). -/
def run_engine (data : JVal) (cfg : Config) : Except PyErr EngineResult :=
  match load_block_extractor_output data with
  | .error e => .error e
  | .ok (lines, blocks) =>
    .ok ⟨pstr "v1.0.0-alpha", pstr "DeterministicRuleEngine", pstr "v1.0.0-alpha",
         pstr "v1.0.0-alpha", cfg.dict_version.getD (pstr "v1.0.0-alpha"),
         pstr "draft-2020-12", pstr "rule_guardrail",
         run_core lines blocks cfg⟩

/-! ### Generic lemmas about the search and dictionary helpers -/

theorem take_isPrefixOf : ∀ (n : Nat) (l : Str), (l.take n).isPrefixOf l = true := by
  intro n l
  induction l generalizing n with
  | nil => simp [List.take, List.isPrefixOf]
  | cons c cs ih =>
    cases n with
    | zero => simp [List.take, List.isPrefixOf]
    | succ m => simp [List.take, List.isPrefixOf, ih]

theorem pyFind_isSome_of_prefixAt :
    ∀ (hay : Str) (i : Nat) (pre : Str), pre.isPrefixOf (hay.drop i) = true →
      (pyFind hay pre).isSome = true := by
  intro hay
  induction hay with
  | nil =>
    intro i pre h
    cases pre with
    | nil => simp [pyFind]
    | cons c cs => simp [List.isPrefixOf] at h
  | cons c cs ih =>
    intro i pre h
    cases i with
    | zero =>
      simp only [List.drop] at h
      simp [pyFind, h]
    | succ j =>
      simp only [List.drop] at h
      have := ih j pre h
      by_cases hp : pre.isPrefixOf (c :: cs) = true
      · simp [pyFind, hp]
      · simp only [pyFind, hp]
        simp_all

theorem pyContains_slice (hay : Str) (i n : Nat) :
    pyContains hay ((hay.drop i).take n) = true := by
  unfold pyContains
  exact pyFind_isSome_of_prefixAt hay i _ (take_isPrefixOf n (hay.drop i))

theorem pick_evidence_contains {orig kw : Str} {cfg : Config} {sn : Str}
    (h : pick_evidence_snippet_for_keyword orig kw cfg = some sn) :
    pyContains orig sn = true := by
  unfold pick_evidence_snippet_for_keyword at h
  by_cases h0 : orig = []
  · simp [h0] at h
  · simp only [h0, if_false] at h
    by_cases h1 : pyContains orig kw = true
    · simp [h1] at h
      subst h
      exact h1
    · simp only [Bool.not_eq_true] at h1
      simp only [h1, Bool.false_eq_true, if_false] at h
      rcases hm : pyFind (orig.map asciiLower) (kw.map asciiLower) with _ | i
      · simp [hm] at h
      · simp [hm] at h
        subst h
        exact pyContains_slice orig i kw.length

theorem nonEmptyOpt_eq_some {o : Option Str} {s : Str} (h : nonEmptyOpt o = some s) :
    o = some s ∧ s ≠ [] := by
  cases o with
  | none => simp [nonEmptyOpt] at h
  | some t =>
    by_cases ht : t = []
    · simp [nonEmptyOpt, ht] at h
    · simp [nonEmptyOpt, ht] at h
      subst h
      exact ⟨rfl, ht⟩

theorem findFirst?_eq_some {p : α → Bool} {l : List α} {x : α}
    (h : findFirst? p l = some x) : p x = true ∧ x ∈ l := by
  induction l with
  | nil => simp [findFirst?] at h
  | cons a as ih =>
    by_cases ha : p a = true
    · simp [findFirst?, ha] at h
      subst h
      exact ⟨ha, List.mem_cons_self a as⟩
    · simp only [Bool.not_eq_true] at ha
      simp only [findFirst?, ha, Bool.false_eq_true, if_false] at h
      rcases ih h with ⟨h1, h2⟩
      exact ⟨h1, List.mem_cons_of_mem a h2⟩

theorem findSomeFirst?_eq_some {f : α → Option β} {l : List α} {y : β}
    (h : findSomeFirst? f l = some y) : ∃ x ∈ l, f x = some y := by
  induction l with
  | nil => simp [findSomeFirst?] at h
  | cons a as ih =>
    rcases ha : f a with _ | b
    · simp only [findSomeFirst?, ha] at h
      rcases ih h with ⟨x, hx, hfx⟩
      exact ⟨x, List.mem_cons_of_mem a hx, hfx⟩
    · simp only [findSomeFirst?, ha] at h
      cases h
      exact ⟨a, List.mem_cons_self a as, ha⟩

theorem mem_listJoinMap {g : α → List β} {l : List α} {r : β}
    (h : r ∈ listJoinMap g l) : ∃ x ∈ l, r ∈ g x := by
  induction l with
  | nil => simp [listJoinMap] at h
  | cons a as ih =>
    simp only [listJoinMap, List.mem_append] at h
    rcases h with h | h
    · exact ⟨a, List.mem_cons_self a as, h⟩
    · rcases ih h with ⟨x, hx, hr⟩
      exact ⟨x, List.mem_cons_of_mem a hx, hr⟩

theorem listJoinMap_append (g : α → List β) (l₁ l₂ : List α) :
    listJoinMap g (l₁ ++ l₂) = listJoinMap g l₁ ++ listJoinMap g l₂ := by
  induction l₁ with
  | nil => simp [listJoinMap]
  | cons a as ih => simp [listJoinMap, ih]

theorem alistGet?_mem [DecidableEq κ] {d : List (κ × α)} {k : κ} {v : α}
    (h : alistGet? d k = some v) : (k, v) ∈ d := by
  induction d with
  | nil => simp [alistGet?] at h
  | cons kv rest ih =>
    rcases kv with ⟨k', v'⟩
    by_cases hk : k' = k
    · simp [alistGet?, hk] at h
      subst hk; subst h
      exact List.mem_cons_self _ _
    · simp only [alistGet?, hk, if_false] at h
      exact List.mem_cons_of_mem _ (ih h)

/-! ### Deduplication lemmas (claim C2) -/

theorem dedupAux_sublist : ∀ (seen : List Str) (rs : List Risk),
    (dedupAux seen rs).Sublist rs := by
  intro seen rs
  induction rs generalizing seen with
  | nil => simp [dedupAux]
  | cons r rs ih =>
    by_cases h : dedupKey r ∈ seen
    · simp only [dedupAux, h, if_pos]
      exact (ih seen).cons r
    · simp only [dedupAux, h, if_neg, not_false_iff]
      exact (ih (dedupKey r :: seen)).cons₂ r

theorem dedupAux_key_notin_seen : ∀ (seen : List Str) (rs : List Risk) (r : Risk),
    r ∈ dedupAux seen rs → dedupKey r ∉ seen := by
  intro seen rs
  induction rs generalizing seen with
  | nil => intro r h; simp [dedupAux] at h
  | cons r0 rs ih =>
    intro r h
    by_cases h0 : dedupKey r0 ∈ seen
    · simp only [dedupAux, h0, if_pos] at h
      exact ih seen r h
    · simp only [dedupAux, h0, if_neg, not_false_iff, List.mem_cons] at h
      rcases h with h | h
      · subst h; exact h0
      · have := ih (dedupKey r0 :: seen) r h
        intro hc
        exact this (List.mem_cons_of_mem _ hc)

theorem dedupAux_pairwise : ∀ (seen : List Str) (rs : List Risk),
    (dedupAux seen rs).Pairwise (fun a b => dedupKey a ≠ dedupKey b) := by
  intro seen rs
  induction rs generalizing seen with
  | nil => simp [dedupAux]
  | cons r0 rs ih =>
    by_cases h0 : dedupKey r0 ∈ seen
    · simp only [dedupAux, h0, if_pos]
      exact ih seen
    · simp only [dedupAux, h0, if_neg, not_false_iff]
      refine List.Pairwise.cons ?_ (ih (dedupKey r0 :: seen))
      intro b hb
      have := dedupAux_key_notin_seen _ _ _ hb
      intro hc
      exact this (hc ▸ List.mem_cons_self _ _)

theorem dedupAux_covers : ∀ (seen : List Str) (rs : List Risk) (r : Risk), r ∈ rs →
    dedupKey r ∈ seen ∨ ∃ r' ∈ dedupAux seen rs, dedupKey r' = dedupKey r := by
  intro seen rs
  induction rs generalizing seen with
  | nil => intro r h; simp at h
  | cons r0 rs ih =>
    intro r h
    rcases List.mem_cons.mp h with h | h
    · subst h
      by_cases h0 : dedupKey r ∈ seen
      · exact Or.inl h0
      · refine Or.inr ⟨r, ?_, rfl⟩
        simp [dedupAux, h0]
    · by_cases h0 : dedupKey r0 ∈ seen
      · rcases ih seen r h with hl | ⟨r', hr', hk⟩
        · exact Or.inl hl
        · refine Or.inr ⟨r', ?_, hk⟩
          simp [dedupAux, h0, hr']
      · rcases ih (dedupKey r0 :: seen) r h with hl | ⟨r', hr', hk⟩
        · rcases List.mem_cons.mp hl with he | hl
          · refine Or.inr ⟨r0, ?_, he.symm⟩
            simp [dedupAux, h0]
          · exact Or.inl hl
        · refine Or.inr ⟨r', ?_, hk⟩
          simp [dedupAux, h0, hr']

theorem dedupAux_first : ∀ (seen : List Str) (rs : List Risk) (r : Risk),
    r ∈ dedupAux seen rs →
    ∃ pre post, rs = pre ++ r :: post ∧ ∀ x ∈ pre, dedupKey x ≠ dedupKey r := by
  intro seen rs
  induction rs generalizing seen with
  | nil => intro r h; simp [dedupAux] at h
  | cons r0 rs ih =>
    intro r h
    by_cases h0 : dedupKey r0 ∈ seen
    · simp only [dedupAux, h0, if_pos] at h
      rcases ih seen r h with ⟨pre, post, heq, hpre⟩
      refine ⟨r0 :: pre, post, by simp [heq], ?_⟩
      intro x hx
      rcases List.mem_cons.mp hx with hx | hx
      · subst hx
        have hnot := dedupAux_key_notin_seen seen rs r h
        intro hc
        exact hnot (hc ▸ h0)
      · exact hpre x hx
    · simp only [dedupAux, h0, if_neg, not_false_iff, List.mem_cons] at h
      rcases h with h | h
      · subst h
        exact ⟨[], rs, rfl, by simp⟩
      · rcases ih (dedupKey r0 :: seen) r h with ⟨pre, post, heq, hpre⟩
        refine ⟨r0 :: pre, post, by simp [heq], ?_⟩
        intro x hx
        rcases List.mem_cons.mp hx with hx | hx
        · subst hx
          have hnot := dedupAux_key_notin_seen _ rs r h
          intro hc
          exact hnot (hc ▸ List.mem_cons_self _ _)
        · exact hpre x hx

/-! ### Claim C2: deduplicator correctness -/

/-- C2: `deduplicate` keys each finding by `risk_type` alone when the
evidence snippet is "N/A" and by `risk_type ++ "||" ++` dedup-normalized
snippet otherwise (`dedupKey`), keeps only the first finding per key
preserving production order (the output is a sublist whose each element
is the first input with its key, and every input key is represented);
consequently no two output entries agree on `(risk_type, dedup-normalized
snippet)` with both snippets not "N/A", and no two "N/A"-snippet entries
share a `risk_type`.  Holds for every list of findings. -/
theorem c2_dedup_correct (risks : List Risk) :
    (deduplicate risks).Sublist risks
    ∧ (∀ r ∈ deduplicate risks,
        ∃ pre post, risks = pre ++ r :: post ∧ ∀ x ∈ pre, dedupKey x ≠ dedupKey r)
    ∧ (∀ r ∈ risks, ∃ r' ∈ deduplicate risks, dedupKey r' = dedupKey r)
    ∧ (deduplicate risks).Pairwise (fun a b =>
        ¬(a.risk_type = b.risk_type ∧ a.evidence.raw_snippet ≠ pstr "N/A"
          ∧ b.evidence.raw_snippet ≠ pstr "N/A"
          ∧ normalize_for_dedup_key a.evidence.raw_snippet
            = normalize_for_dedup_key b.evidence.raw_snippet))
    ∧ (deduplicate risks).Pairwise (fun a b =>
        ¬(a.risk_type = b.risk_type ∧ a.evidence.raw_snippet = pstr "N/A"
          ∧ b.evidence.raw_snippet = pstr "N/A")) := by
  refine ⟨dedupAux_sublist [] risks, ?_, ?_, ?_, ?_⟩
  · intro r hr
    exact dedupAux_first [] risks r hr
  · intro r hr
    rcases dedupAux_covers [] risks r hr with h | h
    · simp at h
    · exact h
  · refine (dedupAux_pairwise [] risks).imp ?_
    intro a b hk ⟨ht, ha, hb, hn⟩
    apply hk
    unfold dedupKey
    simp only [ha, hb, if_neg, ht, hn]
  · refine (dedupAux_pairwise [] risks).imp ?_
    intro a b hk ⟨ht, ha, hb⟩
    apply hk
    unfold dedupKey
    simp [ha, hb, ht]

/-- Witness for C2 at a concrete duplicate pair. -/
theorem c2_dedup_correct_witness :
    (deduplicate [make_risk (pstr "t") (pstr "b") (pstr "S") (pstr "d") (pstr "l"),
                  make_risk (pstr "t") (pstr "b") (pstr "S") (pstr "d") (pstr "l")]).Sublist
      [make_risk (pstr "t") (pstr "b") (pstr "S") (pstr "d") (pstr "l"),
       make_risk (pstr "t") (pstr "b") (pstr "S") (pstr "d") (pstr "l")] :=
  (c2_dedup_correct _).1

/-! ### Claim C8: determinism -/

/-- Default configuration value used by concrete witnesses: no
normalization flags, no regexes, no intents, no thresholds. -/
def cfgEmpty : Config := ⟨false, false, false, [], [], none, none, none⟩

/-- C8: the engine is deterministic — two runs on identical
`(document, configuration)` inputs return identical output, including
evidence selection and risk-list order (the model is a pure function of
its inputs; dictionary iteration and the dedup set are insertion-ordered
and carry no hidden state). -/
theorem c8_deterministic (d₁ d₂ : JVal) (c₁ c₂ : Config)
    (hd : d₁ = d₂) (hc : c₁ = c₂) : run_engine d₁ c₁ = run_engine d₂ c₂ := by
  subst hd
  subst hc
  rfl

/-- Witness for C8 at a concrete input. -/
theorem c8_deterministic_witness :
    run_engine (JVal.obj []) cfgEmpty = run_engine (JVal.obj []) cfgEmpty :=
  c8_deterministic (JVal.obj []) (JVal.obj []) cfgEmpty cfgEmpty rfl rfl

/-! ### Claim C9: falsy source_page coerced to 1 -/

/-- C9: a block or line item whose `source_page` field is absent, null, 0
or any other falsy value loads with `source_page = 1` (the loader's
`int(item.get("source_page", 1) or 1)`); in particular an explicit page 0
is silently rewritten to 1. -/
theorem c9_falsy_page_default (kvs : List (Str × JVal))
    (h : alistGet? kvs (pstr "source_page") = none
         ∨ ∃ v, alistGet? kvs (pstr "source_page") = some v ∧ pyTruthy v = false) :
    (∃ b, loadBlockItem (JVal.obj kvs) = .ok b ∧ b.source_page = 1)
    ∧ (∃ l, loadLineItem (JVal.obj kvs) = .ok l ∧ l.source_page = 1) := by
  constructor
  · refine ⟨⟨pyStr ((alistGet? kvs (pstr "block_id")).getD (.str [])),
            pyStr ((alistGet? kvs (pstr "block_type")).getD (.str [])),
            pyStr ((alistGet? kvs (pstr "text_raw")).getD (.str [])), 1⟩, ?_, rfl⟩
    rcases h with h | ⟨v, hv, hf⟩
    · simp [loadBlockItem, h, pyTruthy, pyInt]
    · simp [loadBlockItem, hv, hf, pyInt]
  · refine ⟨⟨pyStr ((alistGet? kvs (pstr "line_id")).getD (.str [])),
            pyStr ((alistGet? kvs (pstr "text")).getD (.str [])), 1⟩, ?_, rfl⟩
    rcases h with h | ⟨v, hv, hf⟩
    · simp [loadLineItem, h, pyTruthy, pyInt]
    · simp [loadLineItem, hv, hf, pyInt]

/-- Witness for C9: an explicit `source_page: 0` loads as page 1. -/
theorem c9_falsy_page_default_witness :
    (∃ b, loadBlockItem (JVal.obj [(pstr "source_page", JVal.int 0)]) = .ok b
          ∧ b.source_page = 1)
    ∧ (∃ l, loadLineItem (JVal.obj [(pstr "source_page", JVal.int 0)]) = .ok l
            ∧ l.source_page = 1) :=
  c9_falsy_page_default [(pstr "source_page", JVal.int 0)]
    (Or.inr ⟨JVal.int 0, by rfl, by rfl⟩)

/-! ### Claim C5: loader coercion of malformed fields -/

/-- C5 counterexample: the claim says the loader never raises and coerces
a non-numeric `source_page` to page 1; but on the document
`{"blocks": [{"source_page": "abc"}]}` the loader's
`int(item.get("source_page", 1) or 1)` raises `ValueError` ("abc" is
truthy, so the `or 1` default does not apply), failing the whole run. -/
theorem c5_counterexample :
    load_block_extractor_output
      (JVal.obj [(pstr "blocks",
        JVal.arr [JVal.obj [(pstr "source_page", JVal.str (pstr "abc"))]])])
      = .error PyErr.valueError := by
  rfl

/-- C5 (amended): the loader coerces a missing id to the empty string and
a missing `source_page` to page 1 without failing; absent, falsy or
integer-valued pages never raise, but a truthy non-numeric `source_page`
(e.g. the string "abc") raises a `ValueError` instead of being coerced. -/
theorem c5_loader_defaults_amended (kvs : List (Str × JVal))
    (hid : alistGet? kvs (pstr "block_id") = none)
    (hp : alistGet? kvs (pstr "source_page") = none) :
    ∃ b, loadBlockItem (JVal.obj kvs) = .ok b ∧ b.block_id = [] ∧ b.source_page = 1 := by
  refine ⟨⟨[], pyStr ((alistGet? kvs (pstr "block_type")).getD (.str [])),
          pyStr ((alistGet? kvs (pstr "text_raw")).getD (.str [])), 1⟩, ?_, rfl, rfl⟩
  simp [loadBlockItem, hid, hp, pyTruthy, pyInt, pyStr]

/-- Witness for the amended C5 at the empty block object. -/
theorem c5_loader_defaults_amended_witness :
    ∃ b, loadBlockItem (JVal.obj []) = .ok b ∧ b.block_id = [] ∧ b.source_page = 1 :=
  c5_loader_defaults_amended [] rfl rfl

/-! ### Claim C3: entrustment short-circuit -/

/-- C3: whenever some strong-entrustment keyword matches the whole-document
normalized text and no principal-party keyword matches, `rule_relationship`
emits exactly one `incomplete_entrust_relationship` finding and zero
`entrusted_context_ambiguous` findings (the ambiguous case is not
evaluated for such a document). -/
theorem c3_entrust_short_circuit (s : Scopes) (cfg : Config) (rxs : List (Str × RegexPattern))
    (hstrong : intent_match_any (normalize_for_match s.global_text_raw cfg)
      (get_intent_keywords cfg (pstr "entrusted_party_strong_intent")) cfg = true)
    (hprincipal : intent_match_any (normalize_for_match s.global_text_raw cfg)
      (get_intent_keywords cfg (pstr "principal_party_intent")) cfg = false) :
    (rule_relationship s cfg rxs).countP
      (fun r => decide (r.risk_type = pstr "incomplete_entrust_relationship")) = 1
    ∧ (rule_relationship s cfg rxs).countP
      (fun r => decide (r.risk_type = pstr "entrusted_context_ambiguous")) = 0 := by
  have hne : ¬(pstr "incomplete_entrust_relationship" = pstr "entrusted_context_ambiguous") := by
    decide
  unfold rule_relationship
  simp only [hstrong, hprincipal, Bool.not_false, Bool.true_and, if_true]
  constructor
  · simp [List.countP_cons, make_risk]
  · simp [List.countP_cons, make_risk, hne]

/-- Witness for C3 at a concrete one-block document. -/
theorem c3_entrust_short_circuit_witness :
    (rule_relationship
        (build_scopes [] [⟨pstr "b3", pstr "other", pstr "W", 1⟩])
        ⟨false, false, false, [], [(pstr "entrusted_party_strong_intent", [pstr "W"])],
         none, none, none⟩ []).countP
      (fun r => decide (r.risk_type = pstr "incomplete_entrust_relationship")) = 1
    ∧ (rule_relationship
        (build_scopes [] [⟨pstr "b3", pstr "other", pstr "W", 1⟩])
        ⟨false, false, false, [], [(pstr "entrusted_party_strong_intent", [pstr "W"])],
         none, none, none⟩ []).countP
      (fun r => decide (r.risk_type = pstr "entrusted_context_ambiguous")) = 0 :=
  c3_entrust_short_circuit _ _ _ (by decide) (by decide)

/-! ### Claim C7: title threshold -/

theorem alistGet?_set_self [DecidableEq κ] (d : List (κ × α)) (k : κ) (v : α) :
    alistGet? (alistSet d k v) k = some v := by
  induction d with
  | nil => simp [alistSet, alistGet?]
  | cons kv rest ih =>
    rcases kv with ⟨k', v'⟩
    by_cases hk : k' = k
    · simp [alistSet, hk, alistGet?]
    · simp [alistSet, hk, alistGet?, ih]

theorem alistGet?_set_ne [DecidableEq κ] (d : List (κ × α)) (k k' : κ) (v : α)
    (h : k' ≠ k) : alistGet? (alistSet d k v) k' = alistGet? d k' := by
  have h' : ¬(k = k') := fun he => h he.symm
  induction d with
  | nil => simp [alistSet, alistGet?, h']
  | cons kv rest ih =>
    rcases kv with ⟨k0, v0⟩
    by_cases hk : k0 = k
    · subst hk
      simp [alistSet, alistGet?, h']
    · simp [alistSet, alistGet?, hk, ih]

theorem typeFold_get (blocks : List Block) :
    ∀ (d : List (Str × List Block)) (bt : Str),
    (alistGet? (blocks.foldl typeStep d) bt).getD []
      = (alistGet? d bt).getD [] ++ blocks.filter (fun b => decide (b.block_type = bt)) := by
  induction blocks with
  | nil => intro d bt; simp
  | cons b bs ih =>
    intro d bt
    rw [List.foldl_cons, ih]
    by_cases hb : b.block_type = bt
    · subst hb
      simp only [typeStep, List.filter_cons, decide_eq_true_eq, if_pos rfl,
        alistGet?_set_self, Option.getD_some]
      simp [List.append_assoc]
    · have hne : bt ≠ b.block_type := fun he => hb he.symm
      simp only [typeStep, alistGet?_set_ne _ _ _ _ hne]
      simp [List.filter_cons, hb]

/-- Helper: membership in a conditionally emitted singleton. -/
theorem mem_ite_nil_singleton {c : Bool} {x r : Risk}
    (h : r ∈ (if c then ([] : List Risk) else [x])) : c = false ∧ r = x := by
  cases c
  · simp at h
    exact ⟨rfl, h⟩
  · simp at h

/-- Every finding of `rule_missing` carries "N/A" evidence and one of the
seven missing-field risk types; a `missing_product_name` finding appears
only when no title block passes the trimmed-length threshold. -/
theorem rule_missing_cases (s : Scopes) (cfg : Config) (rxs : List (Str × RegexPattern))
    (r : Risk) (h : r ∈ rule_missing s cfg rxs) :
    (r.evidence.block_id = pstr "N/A" ∧ r.evidence.raw_snippet = pstr "N/A")
    ∧ (r.risk_type = pstr "missing_product_name" →
        ((alistGet? s.blocks_by_type (pstr "title")).getD []).any
          (fun b => decide ((pyStrip b.text_raw).length > 2)) = false) := by
  unfold rule_missing at h
  simp only [List.append_assoc] at h
  rcases List.mem_append.mp h with h | h
  · rcases mem_ite_nil_singleton h with ⟨-, rfl⟩
    exact ⟨⟨rfl, rfl⟩, fun hc => absurd hc (by decide)⟩
  rcases List.mem_append.mp h with h | h
  · rcases mem_ite_nil_singleton h with ⟨hc, rfl⟩
    exact ⟨⟨rfl, rfl⟩, fun _ => hc⟩
  rcases List.mem_append.mp h with h | h
  · rcases mem_ite_nil_singleton h with ⟨-, rfl⟩
    exact ⟨⟨rfl, rfl⟩, fun hc => absurd hc (by decide)⟩
  rcases List.mem_append.mp h with h | h
  · rcases mem_ite_nil_singleton h with ⟨-, rfl⟩
    exact ⟨⟨rfl, rfl⟩, fun hc => absurd hc (by decide)⟩
  rcases List.mem_append.mp h with h | h
  · rcases mem_ite_nil_singleton h with ⟨-, rfl⟩
    exact ⟨⟨rfl, rfl⟩, fun hc => absurd hc (by decide)⟩
  rcases List.mem_append.mp h with h | h
  · rcases mem_ite_nil_singleton h with ⟨-, rfl⟩
    exact ⟨⟨rfl, rfl⟩, fun hc => absurd hc (by decide)⟩
  · rcases mem_ite_nil_singleton h with ⟨-, rfl⟩
    exact ⟨⟨rfl, rfl⟩, fun hc => absurd hc (by decide)⟩

/-- C7: when every title-typed block has trimmed text of length at most 2,
`rule_missing` emits a `missing_product_name` finding; when some title
block has trimmed length at least 3 it does not.  (In particular a title
block "AB" still triggers the finding and "ABC" does not: see the
witness.) -/
theorem c7_title_threshold (lines : List Line) (blocks : List Block) (cfg : Config)
    (rxs : List (Str × RegexPattern)) :
    ((∀ b ∈ blocks, b.block_type = pstr "title" → (pyStrip b.text_raw).length ≤ 2) →
      pstr "missing_product_name"
        ∈ (rule_missing (build_scopes lines blocks) cfg rxs).map Risk.risk_type)
    ∧ ((∃ b ∈ blocks, b.block_type = pstr "title" ∧ 3 ≤ (pyStrip b.text_raw).length) →
      pstr "missing_product_name"
        ∉ (rule_missing (build_scopes lines blocks) cfg rxs).map Risk.risk_type) := by
  have hscope : (alistGet? (build_scopes lines blocks).blocks_by_type (pstr "title")).getD []
      = blocks.filter (fun b => decide (b.block_type = pstr "title")) := by
    show (alistGet? (blocks.foldl typeStep []) (pstr "title")).getD [] = _
    rw [typeFold_get]
    simp [alistGet?]
  constructor
  · intro hall
    have hc : ((alistGet? (build_scopes lines blocks).blocks_by_type (pstr "title")).getD []).any
        (fun b => decide ((pyStrip b.text_raw).length > 2)) = false := by
      rw [hscope, List.any_eq_false]
      intro b hb
      rcases List.mem_filter.mp hb with ⟨hmem, hty⟩
      have := hall b hmem (of_decide_eq_true hty)
      simp only [decide_eq_true_eq]
      omega
    refine List.mem_map.mpr
      ⟨make_risk (pstr "missing_product_name") (pstr "N/A") (pstr "N/A")
        (pstr "Product name (title) not observed")
        (pstr "No valid title block was detected or title content is extremely short"),
       ?_, rfl⟩
    unfold rule_missing
    simp only [List.append_assoc]
    refine List.mem_append.mpr (Or.inr (List.mem_append.mpr (Or.inl ?_)))
    rw [if_neg]
    · exact List.mem_singleton.mpr rfl
    · simp [hc]
  · intro ⟨b, hmem, hty, hlen⟩ hin
    rcases List.mem_map.mp hin with ⟨r, hr, hrty⟩
    have hc := (rule_missing_cases _ _ _ _ hr).2 hrty
    rw [hscope] at hc
    have : (blocks.filter (fun b => decide (b.block_type = pstr "title"))).any
        (fun b => decide ((pyStrip b.text_raw).length > 2)) = true := by
      refine List.any_eq_true.mpr ⟨b, List.mem_filter.mpr ⟨hmem, by simp [hty]⟩, ?_⟩
      simp only [decide_eq_true_eq]
      omega
    rw [this] at hc
    cases hc

/-- Witness for C7: a title block "AB" still triggers `missing_product_name`
and a title block "ABC" does not. -/
theorem c7_title_threshold_witness :
    pstr "missing_product_name"
      ∈ (rule_missing (build_scopes [] [⟨pstr "t1", pstr "title", pstr "AB", 1⟩])
          cfgEmpty []).map Risk.risk_type
    ∧ pstr "missing_product_name"
      ∉ (rule_missing (build_scopes [] [⟨pstr "t2", pstr "title", pstr "ABC", 1⟩])
          cfgEmpty []).map Risk.risk_type :=
  ⟨(c7_title_threshold [] [⟨pstr "t1", pstr "title", pstr "AB", 1⟩] cfgEmpty []).1 (by decide),
   (c7_title_threshold [] [⟨pstr "t2", pstr "title", pstr "ABC", 1⟩] cfgEmpty []).2
     ⟨⟨pstr "t2", pstr "title", pstr "ABC", 1⟩, by decide, by decide, by decide⟩⟩

/-! ### Claim C1: evidence integrity -/

theorem find_block_sound {blocks : List Block} {sn : Str} {page : Int} {bid : Str}
    (h : find_block_containing_snippet blocks sn page = some bid) :
    ∃ b ∈ blocks, b.block_id = bid ∧ pyContains b.text_raw sn = true := by
  unfold find_block_containing_snippet at h
  rcases hf : findFirst? (fun b => decide (b.source_page = page) && !b.text_raw.isEmpty
      && pyContains b.text_raw sn) blocks with _ | b
  · rw [hf] at h
    cases h
  · rw [hf] at h
    cases h
    rcases findFirst?_eq_some hf with ⟨hp, hmem⟩
    rw [Bool.and_eq_true, Bool.and_eq_true] at hp
    exact ⟨b, hmem, rfl, hp.2⟩

theorem emitPageRisk_sound {blocks : List Block} {page : Int} {sn rt d lg : Str} {r : Risk}
    (h : r ∈ emitPageRisk blocks page sn rt d lg)
    (hbid : r.evidence.block_id ≠ pstr "N/A") :
    ∃ b ∈ blocks, b.block_id = r.evidence.block_id
      ∧ pyContains b.text_raw r.evidence.raw_snippet = true := by
  rcases List.mem_singleton.mp h with rfl
  cases hf : find_block_containing_snippet blocks sn page with
  | none =>
    refine absurd ?_ hbid
    show (find_block_containing_snippet blocks sn page).getD (pstr "N/A") = pstr "N/A"
    rw [hf]
    rfl
  | some bid =>
    rcases find_block_sound hf with ⟨b, hmem, hid, hcont⟩
    exact ⟨b, hmem, hid, hcont⟩

theorem unitEmit_sound {blocks : List Block} {page : Int} {sn? : Option Str} {lg : Str}
    {r : Risk} (h : r ∈ unitEmit blocks page sn? lg)
    (hbid : r.evidence.block_id ≠ pstr "N/A") :
    ∃ b ∈ blocks, b.block_id = r.evidence.block_id
      ∧ pyContains b.text_raw r.evidence.raw_snippet = true := by
  unfold unitEmit at h
  rcases sn? with _ | sn
  · cases h
  · simp only [] at h
    split at h
    · cases h
    · exact emitPageRisk_sound h hbid

/-- Helper: membership in a conditionally produced list. -/
theorem mem_ite_nil_right {c : Bool} {X : List Risk} {r : Risk}
    (h : r ∈ (if c then X else [])) : c = true ∧ r ∈ X := by
  cases c
  · simp at h
  · simp at h
    exact ⟨rfl, h⟩

theorem fmtUnitPage_sound {blocks : List Block} {rxs : List (Str × RegexPattern)}
    {pe : Int × Str} {r : Risk} (h : r ∈ fmtUnitPage blocks rxs pe)
    (hbid : r.evidence.block_id ≠ pstr "N/A") :
    ∃ b ∈ blocks, b.block_id = r.evidence.block_id
      ∧ pyContains b.text_raw r.evidence.raw_snippet = true := by
  unfold fmtUnitPage at h
  rcases List.mem_append.mp h with h | h <;>
  · rcases mem_ite_nil_right h with ⟨-, h⟩
    exact unitEmit_sound h hbid

theorem fmtLabelPage_sound {blocks : List Block} {cfg : Config}
    {rxs : List (Str × RegexPattern)} {intentName : Str} {rxNames : List Str}
    {fallback rt d lg : Str} {pe : Int × Str} {r : Risk}
    (h : r ∈ fmtLabelPage blocks cfg rxs intentName rxNames fallback rt d lg pe)
    (hbid : r.evidence.block_id ≠ pstr "N/A") :
    ∃ b ∈ blocks, b.block_id = r.evidence.block_id
      ∧ pyContains b.text_raw r.evidence.raw_snippet = true := by
  unfold fmtLabelPage at h
  rcases mem_ite_nil_right h with ⟨-, h⟩
  exact emitPageRisk_sound h hbid

theorem rule_format_sound {s : Scopes} {cfg : Config} {rxs : List (Str × RegexPattern)}
    {r : Risk} (h : r ∈ rule_format s cfg rxs)
    (hbid : r.evidence.block_id ≠ pstr "N/A") :
    ∃ b ∈ s.blocks, b.block_id = r.evidence.block_id
      ∧ pyContains b.text_raw r.evidence.raw_snippet = true := by
  unfold rule_format at h
  simp only [List.append_assoc] at h
  rcases List.mem_append.mp h with h | h
  · rcases mem_listJoinMap h with ⟨pe, -, h⟩
    exact fmtUnitPage_sound h hbid
  rcases List.mem_append.mp h with h | h
  · rcases mem_listJoinMap h with ⟨pe, -, h⟩
    exact fmtLabelPage_sound h hbid
  rcases List.mem_append.mp h with h | h
  · rcases mem_listJoinMap h with ⟨pe, -, h⟩
    exact fmtLabelPage_sound h hbid
  · rcases mem_listJoinMap h with ⟨pe, -, h⟩
    exact fmtLabelPage_sound h hbid

theorem pick_first_none (blocks : List Block) (cfg : Config) :
    pick_first_keyword_evidence_in_blocks blocks [] cfg = none := by
  induction blocks with
  | nil => rfl
  | cons b bs ih =>
    unfold pick_first_keyword_evidence_in_blocks at ih ⊢
    simp only [findSomeFirst?]
    by_cases hb : b.text_raw = []
    · simp only [hb, if_pos rfl]
      exact ih
    · simp only [hb, if_neg, not_false_iff, findSomeFirst?, Option.map_none]
      exact ih

theorem pick_first_sound {blocks : List Block} {kws : List Str} {cfg : Config}
    {sn bid : Str}
    (h : pick_first_keyword_evidence_in_blocks blocks kws cfg = some (sn, bid)) :
    sn ≠ [] ∧ ∃ b ∈ blocks, b.block_id = bid ∧ pyContains b.text_raw sn = true := by
  unfold pick_first_keyword_evidence_in_blocks at h
  rcases findSomeFirst?_eq_some h with ⟨b, hmem, hfb⟩
  by_cases hb : b.text_raw = []
  · rw [if_pos hb] at hfb
    cases hfb
  · rw [if_neg hb] at hfb
    rcases ho : findSomeFirst?
        (fun kw => nonEmptyOpt (pick_evidence_snippet_for_keyword b.text_raw kw cfg)) kws
        with _ | sn0
    · rw [ho] at hfb
      cases hfb
    · rw [ho] at hfb
      rcases Option.some_inj.mp hfb with h'
      cases h'
      rcases findSomeFirst?_eq_some ho with ⟨kw, -, hkw⟩
      rcases nonEmptyOpt_eq_some hkw with ⟨hpick, hne⟩
      exact ⟨hne, b, hmem, rfl, pick_evidence_contains hpick⟩

theorem strong_evidence_sound (blocks : List Block) (kws : List Str) (cfg : Config)
    (hbid : strongBid blocks kws cfg ≠ pstr "N/A") :
    ∃ b ∈ blocks, b.block_id = strongBid blocks kws cfg
      ∧ pyContains b.text_raw (strongSnippet blocks kws cfg) = true := by
  cases hpe : pick_first_keyword_evidence_in_blocks blocks kws cfg with
  | none =>
    refine absurd ?_ hbid
    unfold strongBid
    rw [hpe]
  | some p =>
    rcases p with ⟨sn0, b0⟩
    have hbidEq : strongBid blocks kws cfg = if b0 = [] then pstr "N/A" else b0 := by
      unfold strongBid
      rw [hpe]
    have hb0 : b0 ≠ [] := by
      intro he
      apply hbid
      rw [hbidEq, if_pos he]
    rcases pick_first_sound hpe with ⟨hsn0, b, hmem, hbid0, hcont⟩
    cases kws with
    | nil =>
      rw [pick_first_none] at hpe
      cases hpe
    | cons k ks =>
      have hsnEq : strongSnippet blocks (k :: ks) cfg = if sn0 = [] then k else sn0 := by
        unfold strongSnippet
        rw [hpe]
      rw [hbidEq, if_neg hb0, hsnEq, if_neg hsn0]
      exact ⟨b, hmem, hbid0, hcont⟩

theorem weakEmit_types (cfg : Config) (kws : List Str) (ob : Option Block) :
    ∀ r ∈ weakEmit cfg kws ob, r.risk_type = pstr "entrusted_context_ambiguous" := by
  intro r h
  unfold weakEmit at h
  rcases ob with _ | b
  · cases h
  · rcases List.mem_singleton.mp h with rfl
    rfl

/-- Helper: eliminate membership in a two-branch conditional list. -/
theorem mem_ite_elim {c : Prop} [Decidable c] {X Y : List Risk} {r : Risk} {P : Prop}
    (h : r ∈ (if c then X else Y)) (hX : r ∈ X → P) (hY : r ∈ Y → P) : P := by
  by_cases hc : c
  · rw [if_pos hc] at h
    exact hX h
  · rw [if_neg hc] at h
    exact hY h

theorem rule_relationship_sound {s : Scopes} {cfg : Config}
    {rxs : List (Str × RegexPattern)} {r : Risk} (h : r ∈ rule_relationship s cfg rxs)
    (hty : r.risk_type ≠ pstr "entrusted_context_ambiguous")
    (hbid : r.evidence.block_id ≠ pstr "N/A") :
    ∃ b ∈ s.blocks, b.block_id = r.evidence.block_id
      ∧ pyContains b.text_raw r.evidence.raw_snippet = true := by
  unfold rule_relationship at h
  refine mem_ite_elim h (fun h => ?_) (fun h => ?_)
  · rcases List.mem_singleton.mp h with rfl
    exact strong_evidence_sound s.blocks
      (get_intent_keywords cfg (pstr "entrusted_party_strong_intent")) cfg hbid
  · refine mem_ite_elim h (fun h => ?_) (fun h => by cases h)
    refine mem_ite_elim h (fun h => ?_) (fun h => by cases h)
    exact absurd (weakEmit_types _ _ _ r h) hty

/-- C1 (amended): for every finding in the final risk list whose evidence
`raw_snippet` is not "N/A", whose `block_id` is not "N/A", and whose risk
type is not `entrusted_context_ambiguous`, the snippet is an exact,
uninterrupted substring of the `text_raw` of a document block carrying
the finding's `block_id`.  (The two exclusions are forced by the code:
format and relationship rules can emit a fallback snippet with
`block_id = "N/A"` when no block contains it, and the
`entrusted_context_ambiguous` rule can attach a fallback snippet — the
raw first weak keyword — to a real block that does not contain it.) -/
theorem c1_evidence_integrity_amended (lines : List Line) (blocks : List Block)
    (cfg : Config) :
    ∀ r ∈ run_core lines blocks cfg,
      r.evidence.raw_snippet ≠ pstr "N/A" →
      r.risk_type ≠ pstr "entrusted_context_ambiguous" →
      r.evidence.block_id ≠ pstr "N/A" →
      ∃ b ∈ blocks, b.block_id = r.evidence.block_id
        ∧ pyContains b.text_raw r.evidence.raw_snippet = true := by
  intro r hr _hsn hty hbid
  have hr' : r ∈ rule_missing (build_scopes lines blocks) cfg cfg.regexes
      ++ rule_format (build_scopes lines blocks) cfg cfg.regexes
      ++ rule_relationship (build_scopes lines blocks) cfg cfg.regexes := by
    have hsub := dedupAux_sublist [] (rule_missing (build_scopes lines blocks) cfg cfg.regexes
      ++ rule_format (build_scopes lines blocks) cfg cfg.regexes
      ++ rule_relationship (build_scopes lines blocks) cfg cfg.regexes)
    exact hsub.subset hr
  simp only [List.append_assoc] at hr'
  rcases List.mem_append.mp hr' with h | h
  · exact absurd (rule_missing_cases _ _ _ _ h).1.1 hbid
  rcases List.mem_append.mp h with h | h
  · exact rule_format_sound h hbid
  · exact rule_relationship_sound h hty hbid

/-- Concrete input of the C1 counterexample: a single block whose text is
"A B X". -/
def c1Block : Block := ⟨pstr "b1", pstr "other", pstr "A B X", 1⟩

/-- Concrete configuration of the C1 counterexample: whitespace collapsing
on, one weak-entrustment keyword containing a double space, one producer
keyword. -/
def c1Cfg : Config :=
  ⟨false, true, false, [],
   [(pstr "entrusted_party_weak_intent", [pstr "A  B"]),
    (pstr "producer_intent", [pstr "X"])], none, none, none⟩

/-- C1 counterexample: on the document with the single block `c1Block` and
configuration `c1Cfg`, the final risk list contains a finding (the
`entrusted_context_ambiguous` one) whose snippet "A  B" is not "N/A" and
is not a substring of the text of the block "b1" named by its evidence:
the weak keyword matches only after whitespace collapsing, and the rule
falls back to the raw keyword as evidence. -/
theorem c1_counterexample :
    ∃ r ∈ run_core [] [c1Block] c1Cfg,
      r.evidence.raw_snippet ≠ pstr "N/A"
      ∧ ∀ b ∈ [c1Block], b.block_id = r.evidence.block_id →
          pyContains b.text_raw r.evidence.raw_snippet = false := by
  decide

/-- Concrete block for the C1 witness. -/
def c1wBlock : Block := ⟨pstr "b1", pstr "other", pstr "Q", 1⟩

/-- Concrete configuration for the C1 witness: a license-label intent with
no SC-code regex, so the format family emits a finding with located
evidence. -/
def c1wCfg : Config :=
  ⟨false, false, false, [], [(pstr "license_label_intent", [pstr "Q"])], none, none, none⟩

/-- Concrete finding for the C1 witness. -/
def c1wRisk : Risk :=
  make_risk (pstr "format_license_code_pattern_unusual") (pstr "b1") (pstr "Q")
    (pstr "License label observed but SC code pattern not detected")
    (pstr "License-related label keyword was detected, but no SC-code-like token was matched in the same scope")

/-- Witness for the amended C1 at a concrete run with located evidence. -/
theorem c1_evidence_integrity_amended_witness :
    ∃ b ∈ [c1wBlock], b.block_id = c1wRisk.evidence.block_id
      ∧ pyContains b.text_raw c1wRisk.evidence.raw_snippet = true :=
  c1_evidence_integrity_amended [] [c1wBlock] c1wCfg c1wRisk
    (by decide) (by decide) (by decide) (by decide)

/-! ### Claim C4: missing-field completeness on the empty document -/

theorem normalize_nil (cfg : Config) : normalize_for_match [] cfg = [] := by
  obtain ⟨f, c, l, rx, it, tw, tp, dv⟩ := cfg
  unfold normalize_for_match
  cases f <;> cases c <;> cases l <;> rfl

theorem intent_match_nil (kws : List Str) (cfg : Config) :
    intent_match_any [] kws cfg = false := by
  unfold intent_match_any
  rw [List.any_eq_false]
  intro kw _
  cases hn : normalize_for_match kw cfg with
  | nil => simp [hn]
  | cons c cs => simp [hn, pyContains, pyFind]

theorem countOcc_nil {kn : Str} (h : kn ≠ []) : countOcc [] kn = 0 := by
  simp [countOcc, h, countOccAux]

/-- The seven `rule_missing` findings, as emitted on an empty scope. -/
def sevenMissingRisks : List Risk :=
  [make_risk (pstr "missing_net_content") (pstr "N/A") (pstr "N/A")
    (pstr "Net content field not observed")
    (pstr "No net content intent keywords or value patterns were detected in the extracted text"),
   make_risk (pstr "missing_product_name") (pstr "N/A") (pstr "N/A")
    (pstr "Product name (title) not observed")
    (pstr "No valid title block was detected or title content is extremely short"),
   make_risk (pstr "missing_ingredient_list") (pstr "N/A") (pstr "N/A")
    (pstr "Ingredient list not observed")
    (pstr "No ingredient intent keywords or ingredient block was detected"),
   make_risk (pstr "missing_manufacturer_info") (pstr "N/A") (pstr "N/A")
    (pstr "Producer/manufacturer information not observed")
    (pstr "No producer intent keywords or producer block was detected"),
   make_risk (pstr "missing_date_shelf_life") (pstr "N/A") (pstr "N/A")
    (pstr "Date or shelf-life information not observed")
    (pstr "No date/shelf-life intent keywords or date patterns were detected"),
   make_risk (pstr "missing_standard_code") (pstr "N/A") (pstr "N/A")
    (pstr "Standard code not observed")
    (pstr "No standard label intent keywords, standard block, or standard code pattern was detected"),
   make_risk (pstr "missing_production_license") (pstr "N/A") (pstr "N/A")
    (pstr "Production license (SC) not observed")
    (pstr "No license intent keywords, license block, or SC code pattern was detected")]

theorem run_core_empty (cfg : Config) (hrx : ∀ p ∈ cfg.regexes, p.2.find [] = []) :
    run_core [] [] cfg = sevenMissingRisks := by
  have hI : ∀ name, global_has_intent (build_scopes [] []) cfg name = false := by
    intro name
    unfold global_has_intent
    rw [show (build_scopes [] []).global_text_raw = [] from rfl, normalize_nil]
    exact intent_match_nil _ _
  have hR : ∀ name, global_has_regex (build_scopes [] []) cfg.regexes name = false := by
    intro name
    unfold global_has_regex
    cases hg : alistGet? cfg.regexes name with
    | none => rfl
    | some rx =>
      have hfind : rx.find [] = [] := hrx (name, rx) (alistGet?_mem hg)
      show decide ((regex_find_any [] rx).length > 0) = false
      unfold regex_find_any
      rw [hfind]
      rfl
  have hmiss : rule_missing (build_scopes [] []) cfg cfg.regexes = sevenMissingRisks := by
    unfold rule_missing
    simp only [hI, hR, Bool.or_self, Bool.or_false, Bool.false_or]
    rfl
  have hS : intent_match_any (normalize_for_match (build_scopes [] []).global_text_raw cfg)
      (get_intent_keywords cfg (pstr "entrusted_party_strong_intent")) cfg = false := by
    rw [show (build_scopes [] []).global_text_raw = [] from rfl, normalize_nil]
    exact intent_match_nil _ _
  have hP : intent_match_any (normalize_for_match (build_scopes [] []).global_text_raw cfg)
      (get_intent_keywords cfg (pstr "principal_party_intent")) cfg = false := by
    rw [show (build_scopes [] []).global_text_raw = [] from rfl, normalize_nil]
    exact intent_match_nil _ _
  have hW : ((get_intent_keywords cfg (pstr "entrusted_party_weak_intent")).map
      (fun kw =>
        let kn := normalize_for_match kw cfg
        if kn = [] then 0
        else countOcc (normalize_for_match (build_scopes [] []).global_text_raw cfg) kn)).sum
      = 0 := by
    rw [show (build_scopes [] []).global_text_raw = [] from rfl, normalize_nil]
    induction get_intent_keywords cfg (pstr "entrusted_party_weak_intent") with
    | nil => rfl
    | cons kw kws ih =>
      rw [List.map_cons, List.sum_cons, ih]
      by_cases hk : normalize_for_match kw cfg = []
      · simp [hk]
      · simp [hk, countOcc_nil hk]
  have hrel : rule_relationship (build_scopes [] []) cfg cfg.regexes = [] := by
    unfold rule_relationship
    simp only [hS, hP, Bool.false_and, if_false, Bool.not_false, Bool.true_and, if_true, hW]
    rfl
  have hfmt : rule_format (build_scopes [] []) cfg cfg.regexes = [] := rfl
  show deduplicate (rule_missing (build_scopes [] []) cfg cfg.regexes
    ++ rule_format (build_scopes [] []) cfg cfg.regexes
    ++ rule_relationship (build_scopes [] []) cfg cfg.regexes) = sevenMissingRisks
  rw [hmiss, hfmt, hrel]
  rfl

/-- The observable behaviour of the Python regex `"^"`: on every text,
`finditer` yields exactly one empty match at position 0. -/
def caretRx : RegexPattern := ⟨fun _ => [(0, 0)]⟩

/-- The C4 counterexample configuration: the `net_content_value` pattern
is `"^"`, which matches the empty document text. -/
def c4Cfg : Config :=
  ⟨false, false, false, [(pstr "net_content_value", caretRx)], [], none, none, none⟩

/-- C4 counterexample: the claim quantifies over every configuration, but
with `net_content_value` configured as the regex `"^"` (which matches the
empty string) the empty document yields no `missing_net_content` finding
at all — the regex disjunct of that signal is satisfied vacuously. -/
theorem c4_counterexample :
    ∃ res, run_engine (JVal.obj []) c4Cfg = .ok res
      ∧ res.risk_list.countP
          (fun r => decide (r.risk_type = pstr "missing_net_content")) = 0 :=
  ⟨_, rfl, by decide⟩

/-- C4 (amended): for every configuration whose compiled regexes produce
no match on the empty text, running the engine on a document with zero
blocks and empty text produces a risk list in which each of the seven
missing-field risk types appears exactly once. -/
theorem c4_missing_completeness_amended (cfg : Config)
    (hrx : ∀ p ∈ cfg.regexes, p.2.find [] = []) :
    ∃ res, run_engine (JVal.obj []) cfg = .ok res
      ∧ ∀ t ∈ [pstr "missing_net_content", pstr "missing_product_name",
               pstr "missing_ingredient_list", pstr "missing_manufacturer_info",
               pstr "missing_date_shelf_life", pstr "missing_standard_code",
               pstr "missing_production_license"],
          res.risk_list.countP (fun r => decide (r.risk_type = t)) = 1 := by
  refine ⟨_, rfl, ?_⟩
  show ∀ t ∈ _, (run_core [] [] cfg).countP (fun r => decide (r.risk_type = t)) = 1
  rw [run_core_empty cfg hrx]
  decide

/-- Witness for the amended C4 at the empty configuration. -/
theorem c4_missing_completeness_amended_witness :
    ∃ res, run_engine (JVal.obj []) cfgEmpty = .ok res
      ∧ ∀ t ∈ [pstr "missing_net_content", pstr "missing_product_name",
               pstr "missing_ingredient_list", pstr "missing_manufacturer_info",
               pstr "missing_date_shelf_life", pstr "missing_standard_code",
               pstr "missing_production_license"],
          res.risk_list.countP (fun r => decide (r.risk_type = t)) = 1 :=
  c4_missing_completeness_amended cfgEmpty (fun p hp => absurd hp (List.not_mem_nil p))

/-! ### Claim C6: format findings and page order -/

theorem alistMem_iff [DecidableEq κ] (d : List (κ × α)) (k : κ) :
    alistMem d k = true ↔ k ∈ alistKeys d := by
  induction d with
  | nil => simp [alistMem, alistGet?, alistKeys]
  | cons kv rest ih =>
    rcases kv with ⟨k', v⟩
    by_cases hk : k' = k
    · subst hk
      simp [alistMem, alistGet?, alistKeys]
    · simp only [alistMem, alistGet?, hk, if_false, alistKeys, List.map_cons, List.mem_cons]
      rw [← alistKeys]
      rw [← alistMem]
      rw [ih]
      constructor
      · exact fun h => Or.inr h
      · intro h
        rcases h with h | h
        · exact absurd h.symm hk
        · exact h

theorem alistKeys_set_not_mem [DecidableEq κ] (d : List (κ × α)) (k : κ) (v : α)
    (h : alistMem d k = false) : alistKeys (alistSet d k v) = alistKeys d ++ [k] := by
  induction d with
  | nil => simp [alistSet, alistKeys]
  | cons kv rest ih =>
    rcases kv with ⟨k', v'⟩
    by_cases hk : k' = k
    · subst hk
      simp [alistMem, alistGet?] at h
    · simp only [alistMem, alistGet?, hk, if_false] at h
      have hs : alistSet ((k', v') :: rest) k v = (k', v') :: alistSet rest k v := by
        simp [alistSet, hk]
      rw [hs]
      show k' :: alistKeys (alistSet rest k v) = k' :: alistKeys rest ++ [k]
      rw [ih h]
      rfl

theorem alistKeys_set_mem [DecidableEq κ] (d : List (κ × α)) (k : κ) (v : α)
    (h : alistMem d k = true) : alistKeys (alistSet d k v) = alistKeys d := by
  induction d with
  | nil => simp [alistMem, alistGet?] at h
  | cons kv rest ih =>
    rcases kv with ⟨k', v'⟩
    by_cases hk : k' = k
    · subst hk
      simp [alistSet, alistKeys]
    · simp only [alistMem, alistGet?, hk, if_false] at h
      have hs : alistSet ((k', v') :: rest) k v = (k', v') :: alistSet rest k v := by
        simp [alistSet, hk]
      rw [hs]
      show k' :: alistKeys (alistSet rest k v) = k' :: alistKeys rest
      rw [ih h]

theorem alistMem_set_self [DecidableEq κ] (d : List (κ × α)) (k : κ) (v : α) :
    alistMem (alistSet d k v) k = true := by
  simp [alistMem, alistGet?_set_self]

theorem pageStep_keys (d : List (Int × Str)) (b : Block) :
    alistKeys (pageStep d b)
      = if b.source_page ∈ alistKeys d then alistKeys d
        else alistKeys d ++ [b.source_page] := by
  unfold pageStep
  cases hm : alistMem d b.source_page with
  | true =>
    rw [if_pos ((alistMem_iff d b.source_page).mp hm)]
    simp only [hm, if_true]
    by_cases ht : b.text_raw = []
    · rw [if_pos ht]
    · rw [if_neg ht, alistKeys_set_mem _ _ _ hm]
  | false =>
    have hnot : ¬ b.source_page ∈ alistKeys d := by
      intro hc
      rw [← alistMem_iff] at hc
      rw [hm] at hc
      cases hc
    rw [if_neg hnot]
    simp only [hm, Bool.false_eq_true, if_false]
    by_cases ht : b.text_raw = []
    · rw [if_pos ht, alistKeys_set_not_mem _ _ _ hm]
    · rw [if_neg ht, alistKeys_set_mem _ _ _ (alistMem_set_self d _ _),
        alistKeys_set_not_mem _ _ _ hm]

/-- First-appearance order of a list of page numbers. -/
def firstAppearance (ps : List Int) : List Int :=
  ps.foldl (fun acc p => if p ∈ acc then acc else acc ++ [p]) []

theorem pageFold_keys (blocks : List Block) : ∀ (d : List (Int × Str)),
    alistKeys (blocks.foldl pageStep d)
      = (blocks.map Block.source_page).foldl
          (fun acc p => if p ∈ acc then acc else acc ++ [p]) (alistKeys d) := by
  induction blocks with
  | nil => intro d; rfl
  | cons b bs ih =>
    intro d
    rw [List.foldl_cons, ih, List.map_cons, List.foldl_cons, pageStep_keys]

theorem listJoinMap_split (g : α → List β) (pre : List α) (e₁ : α) (mid : List α)
    (e₂ : α) (post : List α) :
    listJoinMap g (pre ++ e₁ :: mid ++ e₂ :: post)
      = listJoinMap g pre ++ g e₁ ++ listJoinMap g mid ++ g e₂ ++ listJoinMap g post := by
  rw [listJoinMap_append, listJoinMap_append]
  show (listJoinMap g pre ++ (g e₁ ++ listJoinMap g mid)) ++ (g e₂ ++ listJoinMap g post) = _
  simp [List.append_assoc]

/-- C6 (amended): the scope builder's per-page mapping is keyed in
first-appearance order of pages in block input order (not sorted by page
number); `rule_format` is the concatenation of its four per-page
sub-rules, each iterating that mapping in order, so within each sub-rule
every finding generated for an earlier-listed page precedes every finding
generated for a later-listed page. -/
theorem c6_page_order_amended (lines : List Line) (blocks : List Block) (cfg : Config)
    (rxs : List (Str × RegexPattern)) :
    (alistKeys (build_scopes lines blocks).page_text_raw
      = firstAppearance (blocks.map Block.source_page))
    ∧ (rule_format (build_scopes lines blocks) cfg rxs
        = listJoinMap (fmtUnitPage blocks rxs) (build_scopes lines blocks).page_text_raw
          ++ listJoinMap (fmtLabelPage blocks cfg rxs (pstr "net_content_intent")
              [pstr "net_content_value", pstr "net_content_multi"] (pstr "净含量")
              (pstr "format_net_content_pattern_unusual")
              (pstr "Net content label observed but value pattern not detected")
              (pstr "Net content-related label keyword was detected, but no numeric value+unit pattern was matched in the same scope"))
              (build_scopes lines blocks).page_text_raw
          ++ listJoinMap (fmtLabelPage blocks cfg rxs (pstr "standard_label_intent")
              [pstr "standard_code"] (pstr "执行标准")
              (pstr "format_standard_code_pattern_unusual")
              (pstr "Standard label observed but standard code pattern not detected")
              (pstr "Standard-related label keyword was detected, but no standard-code-like token was matched in the same scope"))
              (build_scopes lines blocks).page_text_raw
          ++ listJoinMap (fmtLabelPage blocks cfg rxs (pstr "license_label_intent")
              [pstr "sc_code"] (pstr "SC")
              (pstr "format_license_code_pattern_unusual")
              (pstr "License label observed but SC code pattern not detected")
              (pstr "License-related label keyword was detected, but no SC-code-like token was matched in the same scope"))
              (build_scopes lines blocks).page_text_raw)
    ∧ (∀ (g : Int × Str → List Risk) pre e₁ mid e₂ post,
        (build_scopes lines blocks).page_text_raw = pre ++ e₁ :: mid ++ e₂ :: post →
        listJoinMap g (build_scopes lines blocks).page_text_raw
          = listJoinMap g pre ++ g e₁ ++ listJoinMap g mid ++ g e₂ ++ listJoinMap g post) := by
  refine ⟨?_, rfl, ?_⟩
  · exact pageFold_keys blocks []
  · intro g pre e₁ mid e₂ post h
    rw [h, listJoinMap_split]

/-- Concrete blocks of the C6 counterexample: page 2 appears before
page 1 in input order. -/
def c6BlockA : Block := ⟨pstr "A", pstr "other", pstr "Qa", 2⟩

/-- Second block of the C6 counterexample, on the earlier page number. -/
def c6BlockB : Block := ⟨pstr "B", pstr "other", pstr "Qb", 1⟩

/-- Configuration of the C6 counterexample: a license-label intent whose
keywords match one block on each page, and no SC-code regex. -/
def c6Cfg : Config :=
  ⟨false, false, false, [], [(pstr "license_label_intent", [pstr "Qa", pstr "Qb"])],
   none, none, none⟩

/-- C6 counterexample: with blocks on pages [2, 1] (in that input order),
the per-page mapping is keyed [2, 1] — not ordered by page number — and
the two license-format findings of the final risk list appear with the
page-2 block "A" before the page-1 block "B", so the relative order of
format findings does not follow ascending page number. -/
theorem c6_counterexample :
    alistKeys (build_scopes [] [c6BlockA, c6BlockB]).page_text_raw = [2, 1]
    ∧ ((run_core [] [c6BlockA, c6BlockB] c6Cfg).filter
        (fun r => decide (r.risk_type = pstr "format_license_code_pattern_unusual"))).map
        (fun r => r.evidence.block_id) = [pstr "A", pstr "B"]
    ∧ c6BlockA.source_page = 2 ∧ c6BlockB.source_page = 1 := by
  decide

/-- Witness for the amended C6 at the concrete two-page document. -/
theorem c6_page_order_amended_witness :
    alistKeys (build_scopes [] [c6BlockA, c6BlockB]).page_text_raw
      = firstAppearance ([c6BlockA, c6BlockB].map Block.source_page)
    ∧ listJoinMap (fmtUnitPage [c6BlockA, c6BlockB] [])
        (build_scopes [] [c6BlockA, c6BlockB]).page_text_raw
      = listJoinMap (fmtUnitPage [c6BlockA, c6BlockB] []) []
        ++ fmtUnitPage [c6BlockA, c6BlockB] [] (2, pstr "Qa\n")
        ++ listJoinMap (fmtUnitPage [c6BlockA, c6BlockB] []) []
        ++ fmtUnitPage [c6BlockA, c6BlockB] [] (1, pstr "Qb\n")
        ++ listJoinMap (fmtUnitPage [c6BlockA, c6BlockB] []) [] :=
  ⟨(c6_page_order_amended [] [c6BlockA, c6BlockB] c6Cfg []).1,
   (c6_page_order_amended [] [c6BlockA, c6BlockB] c6Cfg []).2.2 _
     [] (2, pstr "Qa\n") [] (1, pstr "Qb\n") [] (by decide)⟩

/-! ### Claim C10: raw_text_lines and the findings -/

/-- Field accessor used to state that two documents carry identical
`blocks`. -/
def jvalField (v : JVal) (k : Str) : Option JVal :=
  match v with
  | .obj kvs => alistGet? kvs k
  | _ => none

/-- The risk list observable of a run (`none` when the run raises). -/
def riskListOf (e : Except PyErr EngineResult) : Option (List Risk) :=
  match e with
  | .ok res => some res.risk_list
  | .error _ => none

theorem run_core_lines_irrelevant (l₁ l₂ : List Line) (bs : List Block) (cfg : Config) :
    run_core l₁ bs cfg = run_core l₂ bs cfg := rfl

/-- C10 (amended): whenever both documents load successfully, identical
blocks imply identical engine output — the findings never consult
`raw_text_lines` (the scope's `line_text_by_id` is built but read by no
rule).  Without the success proviso the claim fails: a malformed
`raw_text_lines` entry makes the whole run raise. -/
theorem c10_lines_no_influence_amended (d₁ d₂ : JVal) (cfg : Config)
    (l₁ l₂ : List Line) (bs : List Block)
    (h₁ : load_block_extractor_output d₁ = .ok (l₁, bs))
    (h₂ : load_block_extractor_output d₂ = .ok (l₂, bs)) :
    run_engine d₁ cfg = run_engine d₂ cfg := by
  simp only [run_engine, h₁, h₂]
  rw [run_core_lines_irrelevant l₁ l₂ bs cfg]

/-- First document of the C10 counterexample (no lines). -/
def c10Doc1 : JVal := JVal.obj [(pstr "blocks", JVal.arr [])]

/-- Second document of the C10 counterexample: identical blocks, but a
line whose `source_page` is the non-numeric string "x". -/
def c10Doc2 : JVal :=
  JVal.obj [(pstr "blocks", JVal.arr []),
    (pstr "raw_text_lines", JVal.arr [JVal.obj [(pstr "source_page", JVal.str (pstr "x"))]])]

/-- C10 counterexample: the two documents carry identical `blocks`, yet
the first run produces a risk list and the second raises while loading
its `raw_text_lines` — so `raw_text_lines` does influence `run_engine`'s
outcome. -/
theorem c10_counterexample :
    jvalField c10Doc1 (pstr "blocks") = jvalField c10Doc2 (pstr "blocks")
    ∧ riskListOf (run_engine c10Doc1 cfgEmpty) ≠ riskListOf (run_engine c10Doc2 cfgEmpty) :=
  ⟨rfl, by decide⟩

/-- Witness for the amended C10: two documents with identical blocks and
different, well-formed lines produce identical output. -/
theorem c10_lines_no_influence_amended_witness :
    run_engine (JVal.obj [(pstr "blocks", JVal.arr []), (pstr "raw_text_lines", JVal.arr [])])
        cfgEmpty
      = run_engine (JVal.obj [(pstr "blocks", JVal.arr []),
          (pstr "raw_text_lines",
            JVal.arr [JVal.obj [(pstr "line_id", JVal.str (pstr "L")),
              (pstr "text", JVal.str (pstr "hello"))]])]) cfgEmpty :=
  c10_lines_no_influence_amended _ _ cfgEmpty [] [⟨pstr "L", pstr "hello", 1⟩] []
    (by rfl) (by rfl)
